import Mathlib

/-!
Verification of the OpenMDAO-Framework core specification: the dependency
graph / expression-connection engine with pseudo-components, the
finite-difference gradient computation, the GUI FileManager constructor and
the Container attribute access layer.

The exprmapper / pseudocomp / derivatives implementation files are not part
of the provided sources (only their test files are), so those parts are
modelled from the specification text, with concrete behaviour pinned by the
repository test files `test_pseudocomp.py` and `test_derivatives_fd.py`.
`filemanager.py` and `container.py` are present and embedded directly.
-/

/-! ## Variable references and expressions -/

/-- Modelled from the spec: a variable reference `(component_name,
variable_name)`; an array index such as `arr[1]` is kept as part of the
variable name, matching the granularity used by the repository tests. -/
structure VRef where
  comp : String
  var : String
deriving DecidableEq, Repr

/-- Dotted text of a variable reference, e.g. `comp1.c`. -/
def VRef.text (r : VRef) : String := r.comp ++ "." ++ r.var

/-- Modelled from the spec: the expression language of connection sources
(bare references and arithmetic combinations, §4.1). -/
inductive Expr where
  | ref : VRef → Expr
  | num : ℚ → Expr
  | add : Expr → Expr → Expr
  | sub : Expr → Expr → Expr
  | mul : Expr → Expr → Expr
  | div : Expr → Expr → Expr
deriving DecidableEq, Repr

/-- Render an expression back to its connection text. -/
def Expr.render : Expr → String
  | .ref r => r.text
  | .num q => toString q.num
  | .add a b => a.render ++ "+" ++ b.render
  | .sub a b => a.render ++ "-" ++ b.render
  | .mul a b => a.render ++ "*" ++ b.render
  | .div a b => a.render ++ "/" ++ b.render

/-- All variable references of an expression, in textual order with
repetitions. -/
def Expr.refList : Expr → List VRef
  | .ref r => [r]
  | .num _ => []
  | .add a b => a.refList ++ b.refList
  | .sub a b => a.refList ++ b.refList
  | .mul a b => a.refList ++ b.refList
  | .div a b => a.refList ++ b.refList

/-- Distinct variable references in first-occurrence order. -/
def dedupFirst (l : List VRef) : List VRef :=
  l.foldl (fun acc r => if r ∈ acc then acc else acc ++ [r]) []

/-- Distinct references of a source expression, first occurrence first. -/
def Expr.refs (e : Expr) : List VRef := dedupFirst e.refList

/-- An expression is trivial iff it is exactly one bare variable reference
(§4.1 `is_trivial`). -/
def Expr.trivial : Expr → Bool
  | .ref _ => true
  | _ => false

/-- Evaluate an expression against a value environment keyed by reference
text (§4.1 `evaluate`; pure given the lookup). -/
def Expr.evalWith (env : String → ℚ) : Expr → ℚ
  | .ref r => env r.text
  | .num q => q
  | .add a b => a.evalWith env + b.evalWith env
  | .sub a b => a.evalWith env - b.evalWith env
  | .mul a b => a.evalWith env * b.evalWith env
  | .div a b => a.evalWith env / b.evalWith env

/-! ## Units -/

/-- Modelled from the spec: the external unit-conversion service which,
given a physical unit pair, returns a linear transform `(scale, offset)`
with `y = x*scale + offset` (§1, §4.1).  The table covers the unit pairs
exercised by the repository tests. -/
def unitTransformTable : String → String → Option (ℚ × ℚ)
  | "ft", "inch" => some (12, 0)
  | "inch", "ft" => some (1/12, 0)
  | "ft/s", "inch/s" => some (12, 0)
  | "inch/s", "ft/s" => some (1/12, 0)
  | "degC", "degF" => some (9/5, 32)
  | "degF", "degC" => some (5/9, -160/9)
  | _, _ => none

/-- Conversion needed between two optional units: `none` when units match
or either side is unitless (§4.3 step 3). -/
def neededTransform (u v : Option String) : Option (ℚ × ℚ) :=
  match u, v with
  | some a, some b => if a = b then none else unitTransformTable a b
  | _, _ => none

/-! ## Assembly state: expression mapper + derived dependency graph -/

/-- Modelled from the spec: the transform owned by a pseudo-component —
either a unit conversion `out0 = in0*scale + offset` or an arbitrary
composite source expression (§3, §4.4). -/
inductive PseudoKind where
  | unitConv : ℚ → ℚ → PseudoKind
  | composite : Expr → PseudoKind
deriving DecidableEq, Repr

/-- Modelled from the spec: a synthesized pseudo-component: numbered name
`_idx`, its transform, and its input wires `(source reference, input
number)` where input number `k` stands for port `ink` (§3, §4.4). -/
structure PseudoInfo where
  idx : ℕ
  kind : PseudoKind
  wires : List (VRef × ℕ)
deriving DecidableEq, Repr

/-- Name of the pseudo-component numbered `i`: an underscore followed by
the counter value (test fixture names `_0`, `_1`, ...). -/
def pseudoName (i : ℕ) : String := "_" ++ toString i

/-- Modelled from the spec: one recorded connection of the Expression
Mapper: the user-authored `(source expression, destination reference)` pair
plus the synthesized pseudo-component when one was required (§3, §4.3). -/
structure ConnEntry where
  src : Expr
  dest : VRef
  pseudo : Option PseudoInfo
deriving DecidableEq, Repr

/-- Modelled from the spec: the assembly-owned state: base graph nodes
(components, driver and the four boundary sentinels), variable unit
declarations, the authoritative connection list and the never-reset
pseudo-component naming counter (§3, §4.3, §4.4, §9). -/
structure Assembly where
  comps : List String
  units : List (VRef × Option String)
  entries : List ConnEntry
  counter : ℕ
deriving DecidableEq, Repr

/-- Declared unit of a variable reference. -/
def Assembly.unitOf (s : Assembly) (r : VRef) : Option String :=
  match s.units.find? (fun p => p.1 = r) with
  | some p => p.2
  | none => none

/-- Indices of the live pseudo-components, in connection order. -/
def Assembly.pseudoIdxs (s : Assembly) : List ℕ :=
  s.entries.filterMap (fun e => e.pseudo.map (fun p => p.idx))

/-- Names of the live pseudo-components (`list_pseudocomps`, §4.3). -/
def Assembly.list_pseudocomps (s : Assembly) : List String :=
  s.pseudoIdxs.map pseudoName

/-- Dependency-graph node list: base nodes plus live pseudo-components
(derived index, §9). -/
def Assembly.nodes (s : Assembly) : List String :=
  s.comps ++ s.list_pseudocomps

/-- Variable-level edges contributed by one connection entry to the
low-level dependency graph: a direct edge when no pseudo-component is
involved, otherwise the wires into the pseudo-component and the wire from
`out0` to the destination (§4.3 steps 3-5). -/
def entryDepEdges (e : ConnEntry) : List (String × String) :=
  match e.pseudo with
  | none => [(e.src.render, e.dest.text)]
  | some p =>
      p.wires.map (fun w => (w.1.text, pseudoName p.idx ++ ".in" ++ toString w.2))
        ++ [(pseudoName p.idx ++ ".out0", e.dest.text)]

/-- Dependency-graph `list_connections`: every variable-level edge (§4.2),
derived from the authoritative connection list (§9). -/
def Assembly.depgraph_list_connections (s : Assembly) : List (String × String) :=
  s.entries.flatMap entryDepEdges

/-- Expression-mapper `list_connections()` with no restriction: the
user-authored pair of every entry together with every underlying edge
through its pseudo-component (§4.3 step 6). -/
def Assembly.list_connections (s : Assembly) : List (String × String) :=
  s.entries.flatMap (fun e =>
    match e.pseudo with
    | none => [(e.src.render, e.dest.text)]
    | some _ => (e.src.render, e.dest.text) :: entryDepEdges e)

/-- Expression-mapper `list_connections(visible_only=True)`: only the
user-authored connections, reported per referenced source variable and
never mentioning a pseudo-component (§4.3 step 6; pinned by
`test_multi_src`). -/
def Assembly.list_connections_visible (s : Assembly) : List (String × String) :=
  s.entries.flatMap (fun e => e.src.refs.map (fun r => (r.text, e.dest.text)))

/-! ## connect -/

/-- Modelled from the spec: error taxonomy of the connection engine (§7). -/
inductive ConnError where
  | duplicate : String → ConnError
deriving DecidableEq, Repr

/-- Input-wire assignment of a composite pseudo-component.  The spec text
claims first-occurrence order, but the repository tests
(`test_multi_src`, `test_multi_src_arr`) pin `in0` to the LAST occurring
reference — e.g. `comp1.dist/comp1.time` wires `comp1.time` to `in0` and
`comp1.dist` to `in1` — so the wires follow reverse first-occurrence
order. -/
def compositeWires (src : Expr) : List (VRef × ℕ) :=
  (src.refs.reverse.enum).map (fun p => (p.2, p.1))

/-- Input-wire assignment that follows the specification words instead of
the tests: inputs `in0..inK-1` in first-occurrence order of the distinct
references in the source text (§4.3 step 5).  Kept for comparison against
the behaviour pinned by the repository tests. -/
def specOrderWires (src : Expr) : List (VRef × ℕ) :=
  (src.refs.enum).map (fun p => (p.2, p.1))

/-- Modelled from the spec: build the connection entry for a source
expression and destination: direct edge for a trivial source with matching
units, a 1-input unit-conversion pseudo-component for a trivial source with
differing units, and a multi-input pseudo-component for a composite source
(§4.3 steps 3-5). -/
def mkEntry (s : Assembly) (src : Expr) (dst : VRef) : ConnEntry :=
  match src with
  | .ref r =>
      match neededTransform (s.unitOf r) (s.unitOf dst) with
      | none => { src := src, dest := dst, pseudo := none }
      | some (sc, off) =>
          { src := src, dest := dst,
            pseudo := some { idx := s.counter, kind := .unitConv sc off,
                             wires := [(r, 0)] } }
  | _ =>
      { src := src, dest := dst,
        pseudo := some { idx := s.counter, kind := .composite src,
                         wires := compositeWires src } }

/-- Modelled from the spec: `connect(source, dest)`: fails with
`DuplicateConnectionError` when the destination is already driven; records
the connection and synthesizes a pseudo-component when required,
incrementing the naming counter exactly on synthesis (§4.3, §4.4). -/
def Assembly.connect (s : Assembly) (src : Expr) (dst : VRef) :
    Except ConnError Assembly :=
  if s.entries.any (fun e => e.dest = dst) then
    .error (.duplicate dst.text)
  else
    let e := mkEntry s src dst
    .ok { s with entries := s.entries ++ [e],
                 counter := s.counter + (if e.pseudo.isSome then 1 else 0) }

/-! ## disconnect -/

/-- A connection entry touches a variable reference when the reference
occurs in its source expression or is its destination (§4.3 disconnect of
a single variable reference). -/
def touchesVar (e : ConnEntry) (r : VRef) : Bool :=
  r ∈ e.src.refList || e.dest = r

/-- A connection entry touches a component when any variable of that
component occurs on either side (§4.3 disconnect of a component name). -/
def touchesComp (e : ConnEntry) (c : String) : Bool :=
  e.src.refList.any (fun r => r.comp = c) || e.dest.comp = c

/-- Modelled from the spec: `disconnect(source_text -> dest)`: remove
exactly the connection with that source expression text and destination;
a pseudo-component left without connections disappears from both derived
views (§4.3). -/
def Assembly.disconnectPair (s : Assembly) (srcText : String) (dst : VRef) :
    Assembly :=
  { s with entries :=
      s.entries.filter (fun e => ¬(e.src.render = srcText ∧ e.dest = dst)) }

/-- Modelled from the spec: `disconnect(var)`: remove every connection
touching the given variable reference (§4.3). -/
def Assembly.disconnectVar (s : Assembly) (r : VRef) : Assembly :=
  { s with entries := s.entries.filter (fun e => ¬touchesVar e r) }

/-- Modelled from the spec: `disconnect(component_name)`: remove every
connection touching any variable of the component (§4.3). -/
def Assembly.disconnectComp (s : Assembly) (c : String) : Assembly :=
  { s with entries := s.entries.filter (fun e => ¬touchesComp e c) }

/-! ## Run semantics (value propagation) -/

/-- Value produced at the destination of one connection entry given the
current upstream values: a direct copy, the linear unit transform, or the
evaluation of the composite source expression (§4.4 `execute`). -/
def entryDestValue (e : ConnEntry) (env : String → ℚ) : ℚ :=
  match e.pseudo with
  | none => e.src.evalWith env
  | some p =>
      match p.kind with
      | .unitConv sc off =>
          (match p.wires with
           | (r, _) :: _ => env r.text * sc + off
           | [] => off)
      | .composite src => src.evalWith env

/-- Modelled from the spec: running the assembly propagates each
connection: every connected destination receives its entry value, other
variables keep their value (§4.5 `run`, restricted to the data transfers
the claims observe). -/
def Assembly.runValues (s : Assembly) (env : String → ℚ) : String → ℚ :=
  fun v =>
    match s.entries.find? (fun e => e.dest.text = v) with
    | some e => entryDestValue e env
    | none => env v

/-! ## Well-formedness -/

/-- Invariant tying the naming counter to the live pseudo-components:
every live index is below the counter and indices are distinct (§4.4,
§9). -/
def Assembly.wf (s : Assembly) : Prop :=
  (∀ i ∈ s.pseudoIdxs, i < s.counter) ∧ s.pseudoIdxs.Nodup

instance (s : Assembly) : Decidable s.wf := by
  unfold Assembly.wf; infer_instance

/-! ## Concrete test fixture (from test_pseudocomp.py) -/

/-- Unit declarations of the `Simple` component class of the test fixture:
inputs `a`, `b` in inch, outputs `c`, `d`, `dist`, `arr[1]` in ft, `time`
in s, input `speed` in inch/s. -/
def simpleUnits (c : String) : List (VRef × Option String) :=
  [(⟨c, "a"⟩, some "inch"), (⟨c, "b"⟩, some "inch"),
   (⟨c, "c"⟩, some "ft"), (⟨c, "d"⟩, some "ft"),
   (⟨c, "dist"⟩, some "ft"), (⟨c, "time"⟩, some "s"),
   (⟨c, "speed"⟩, some "inch/s"), (⟨c, "arr[1]"⟩, some "ft")]

/-- The empty two-component assembly of `_simple_model(units=True)` before
any connection: components `comp1`, `comp2`, the driver and the four
boundary sentinel nodes. -/
def simpleModel0 : Assembly :=
  { comps := ["comp1", "comp2", "driver", "@bin", "@bout", "@xin", "@xout"],
    units := simpleUnits "comp1" ++ simpleUnits "comp2",
    entries := [], counter := 0 }

/-- Run a connect, keeping the prior state on error (used to build
concrete fixture states). -/
def afterConnect (s : Assembly) (src : Expr) (dst : VRef) : Assembly :=
  match s.connect src dst with
  | .ok t => t
  | .error _ => s

/-- State after `connect("comp1.c", "comp2.a")` (ft output into inch
input), as in `test_basic_units`. -/
def unitsModel : Assembly :=
  afterConnect simpleModel0 (.ref ⟨"comp1", "c"⟩) ⟨"comp2", "a"⟩

/-- The composite source expression `comp1.dist/comp1.time`. -/
def srcDistTime : Expr :=
  .div (.ref ⟨"comp1", "dist"⟩) (.ref ⟨"comp1", "time"⟩)

/-- State after additionally running
`connect("comp1.dist/comp1.time", "comp2.speed")`, as in
`test_multi_src`. -/
def multiModel : Assembly :=
  afterConnect unitsModel srcDistTime ⟨"comp2", "speed"⟩

/-! ## Claim C1 -/

/-- C1, counterexample: with `comp1.c` declared in ft and `comp2.a` in
inch, `connect("comp1.c","comp2.a")` does NOT produce exactly one
dependency edge with no pseudo-component: the dependency graph gains the
unit-conversion pseudo-component `_0` and two edges. -/
theorem c1_counterexample :
    ¬(unitsModel.depgraph_list_connections.length = 1 ∧
      unitsModel.list_pseudocomps = []) ∧
    unitsModel.depgraph_list_connections.length = 2 ∧
    unitsModel.list_pseudocomps = ["_0"] := by decide

/-- C1, amended: the ft-to-inch `connect("comp1.c","comp2.a")` produces
exactly one visible pseudo-component-free connection, while the dependency
graph gains pseudo-component `_0` carrying the transform
`out0 = in0*12.0` and the two edges `comp1.c -> _0.in0` and
`_0.out0 -> comp2.a`; setting `comp1.c = 3.0` and running sets
`comp2.a = 36.0`. -/
theorem c1_amended :
    unitsModel.list_connections_visible = [("comp1.c", "comp2.a")] ∧
    unitsModel.depgraph_list_connections =
      [("comp1.c", "_0.in0"), ("_0.out0", "comp2.a")] ∧
    unitsModel.entries =
      [{ src := .ref ⟨"comp1", "c"⟩, dest := ⟨"comp2", "a"⟩,
         pseudo := some { idx := 0, kind := .unitConv 12 0,
                          wires := [(⟨"comp1", "c"⟩, 0)] } }] ∧
    unitsModel.runValues (fun t => if t = "comp1.c" then 3 else 0)
      "comp2.a" = 36 := by
  refine ⟨by decide, by decide, by decide, ?_⟩
  show (3 : ℚ) * 12 + 0 = 36
  norm_num

/-! ## Claim C2 -/

/-- C2, counterexample: for `connect("comp1.dist/comp1.time",
"comp2.speed")` the first-occurring reference `comp1.dist` is wired to
`in1`, not `in0`; `in0` receives the later-occurring `comp1.time` —
contrary to first-occurrence order (which `specOrderWires` spells out). -/
theorem c2_counterexample :
    ("comp1.dist", "_1.in1") ∈ multiModel.depgraph_list_connections ∧
    ("comp1.time", "_1.in0") ∈ multiModel.depgraph_list_connections ∧
    ("comp1.dist", "_1.in0") ∉ multiModel.depgraph_list_connections ∧
    specOrderWires srcDistTime =
      [(⟨"comp1", "dist"⟩, 0), (⟨"comp1", "time"⟩, 1)] ∧
    compositeWires srcDistTime ≠ specOrderWires srcDistTime := by decide

/-- Reduction of `mkEntry` on a non-trivial (composite) source. -/
theorem mkEntry_of_composite (s : Assembly) (src : Expr) (dst : VRef)
    (h : src.trivial = false) :
    mkEntry s src dst =
      { src := src, dest := dst,
        pseudo := some { idx := s.counter, kind := .composite src,
                         wires := compositeWires src } } := by
  cases src
  case ref r => simp [Expr.trivial] at h
  all_goals rfl

/-- C2, amended: every successful connect with a composite (non-trivial)
source synthesizes exactly one pseudo-component numbered with the current
counter, with one input per distinct variable reference of the source
named `in0..inK-1` in reverse first-occurrence order (the order pinned by
the repository tests), wires each referenced variable to its input and the
pseudo-component's `out0` to the destination. -/
theorem c2_amended (s : Assembly) (src : Expr) (dst : VRef) (t : Assembly)
    (htriv : src.trivial = false)
    (hconn : s.connect src dst = .ok t) :
    ∃ p : PseudoInfo,
      t.entries = s.entries ++ [⟨src, dst, some p⟩] ∧
      p.idx = s.counter ∧
      p.kind = .composite src ∧
      p.wires.map Prod.fst = src.refs.reverse ∧
      p.wires.map Prod.snd = List.range src.refs.length ∧
      (pseudoName p.idx ++ ".out0", dst.text) ∈ t.depgraph_list_connections ∧
      (∀ w ∈ p.wires,
        (w.1.text, pseudoName p.idx ++ ".in" ++ toString w.2)
          ∈ t.depgraph_list_connections) := by
  unfold Assembly.connect at hconn
  split at hconn
  · exact absurd hconn (by simp)
  · rw [mkEntry_of_composite s src dst htriv] at hconn
    simp only [Except.ok.injEq] at hconn
    subst hconn
    refine ⟨{ idx := s.counter, kind := .composite src,
              wires := compositeWires src }, rfl, rfl, rfl, ?_, ?_, ?_, ?_⟩
    · rw [compositeWires, List.map_map]
      exact List.enum_map_snd src.refs.reverse
    · rw [compositeWires, List.map_map]
      rw [show (Prod.snd ∘ fun p : ℕ × VRef => (p.2, p.1)) = Prod.fst from rfl]
      rw [List.enum_map_fst, List.length_reverse]
    · apply List.mem_flatMap.2
      refine ⟨{ src := src, dest := dst,
                pseudo := some { idx := s.counter, kind := .composite src,
                                 wires := compositeWires src } },
              List.mem_append_right _ (List.mem_singleton.2 rfl), ?_⟩
      unfold entryDepEdges
      exact List.mem_append_right _ (List.mem_singleton.2 rfl)
    · intro w hw
      apply List.mem_flatMap.2
      refine ⟨{ src := src, dest := dst,
                pseudo := some { idx := s.counter, kind := .composite src,
                                 wires := compositeWires src } },
              List.mem_append_right _ (List.mem_singleton.2 rfl), ?_⟩
      unfold entryDepEdges
      exact List.mem_append_left _ (List.mem_map_of_mem _ hw)

/-- C2, witness: the amended theorem applied to the concrete composite
connect of `test_multi_src`. -/
theorem c2_witness :
    srcDistTime.trivial = false ∧
    unitsModel.connect srcDistTime ⟨"comp2", "speed"⟩ = .ok multiModel ∧
    (∃ p : PseudoInfo,
      multiModel.entries =
        unitsModel.entries ++ [⟨srcDistTime, ⟨"comp2", "speed"⟩, some p⟩] ∧
      p.idx = unitsModel.counter ∧
      p.kind = .composite srcDistTime ∧
      p.wires.map Prod.fst = srcDistTime.refs.reverse ∧
      p.wires.map Prod.snd = List.range srcDistTime.refs.length ∧
      (pseudoName p.idx ++ ".out0", (⟨"comp2", "speed"⟩ : VRef).text)
        ∈ multiModel.depgraph_list_connections ∧
      (∀ w ∈ p.wires,
        (w.1.text, pseudoName p.idx ++ ".in" ++ toString w.2)
          ∈ multiModel.depgraph_list_connections)) :=
  ⟨by decide, rfl,
   c2_amended unitsModel srcDistTime ⟨"comp2", "speed"⟩ multiModel
     (by decide) rfl⟩

/-! ## Claim C3 -/

/-- C3: `list_connections(visible_only=True)` reports only user-authored
connections — every reported pair comes from a recorded connection, pairing
a referenced source variable with its destination — while
`list_connections()` reports every underlying variable-level edge: it
contains every dependency-graph edge, including the edges into and out of
pseudo-components. -/
theorem c3_visible_vs_full (s : Assembly) :
    (∀ pr ∈ s.list_connections_visible,
      ∃ e ∈ s.entries, ∃ r ∈ e.src.refs, pr = (r.text, e.dest.text)) ∧
    (∀ ed ∈ s.depgraph_list_connections, ed ∈ s.list_connections) := by
  constructor
  · intro pr hpr
    obtain ⟨e, he, hmem⟩ := List.mem_flatMap.1 hpr
    obtain ⟨r, hr, hre⟩ := List.mem_map.1 hmem
    exact ⟨e, he, r, hr, hre.symm⟩
  · intro ed hed
    obtain ⟨e, he, hmem⟩ := List.mem_flatMap.1 hed
    apply List.mem_flatMap.2
    refine ⟨e, he, ?_⟩
    cases hp : e.pseudo with
    | none =>
        simp only [hp]
        rw [entryDepEdges, hp] at hmem
        exact hmem
    | some p =>
        simp only [hp]
        exact List.mem_cons_of_mem _ hmem

/-- C3, witness: the guarantees instantiated on the `test_multi_src`
state: the visible pair `(comp1.dist, comp2.speed)` traces back to a
recorded connection, and the pseudo-component edge
`(comp1.time, _1.in0)` of the dependency graph is reported by the
unrestricted `list_connections()`. -/
theorem c3_witness :
    ("comp1.dist", "comp2.speed") ∈ multiModel.list_connections_visible ∧
    ("comp1.time", "_1.in0") ∈ multiModel.depgraph_list_connections ∧
    (∃ e ∈ multiModel.entries, ∃ r ∈ e.src.refs,
      (("comp1.dist", "comp2.speed") : String × String) =
        (r.text, e.dest.text)) ∧
    ("comp1.time", "_1.in0") ∈ multiModel.list_connections :=
  ⟨by decide, by decide,
   (c3_visible_vs_full multiModel).1 _ (by decide),
   (c3_visible_vs_full multiModel).2 _ (by decide)⟩

/-! ## Claim C4 -/

/-- A value produced by one surviving element of a filtered list cannot
reappear when the producing element is removed, provided the produced
values were distinct. -/
theorem filterMap_filter_not_mem {α β : Type} (g : α → Option β)
    (pred : α → Bool) :
    ∀ (l : List α), (l.filterMap g).Nodup →
      ∀ a ∈ l, ∀ b, g a = some b → pred a = false →
        b ∉ (l.filter pred).filterMap g := by
  intro l
  induction l with
  | nil => intro _ a ha; exact absurd ha (List.not_mem_nil a)
  | cons x xs ih =>
      intro hnd a ha b hb hpa hmem
      rcases List.mem_cons.1 ha with heq | ha'
      · subst heq
        rw [List.filter_cons_of_neg (by simp [hpa])] at hmem
        have hnotin : b ∉ xs.filterMap g := by
          rw [List.filterMap_cons_some hb] at hnd
          exact (List.nodup_cons.1 hnd).1
        exact hnotin (((List.filter_sublist xs).filterMap g).subset hmem)
      · have hndtail : (xs.filterMap g).Nodup := by
          cases hgx : g x with
          | none => rwa [List.filterMap_cons_none hgx] at hnd
          | some v =>
              rw [List.filterMap_cons_some hgx] at hnd
              exact (List.nodup_cons.1 hnd).2
        cases hpx : pred x with
        | false =>
            rw [List.filter_cons_of_neg (by simp [hpx])] at hmem
            exact ih hndtail a ha' b hb hpa hmem
        | true =>
            rw [List.filter_cons_of_pos (by simp [hpx])] at hmem
            cases hgx : g x with
            | none =>
                rw [List.filterMap_cons_none hgx] at hmem
                exact ih hndtail a ha' b hb hpa hmem
            | some v =>
                rw [List.filterMap_cons_some hgx] at hmem
                rcases List.mem_cons.1 hmem with heq2 | hmem'
                · have hbxs : b ∈ xs.filterMap g :=
                    List.mem_filterMap.2 ⟨a, ha', hb⟩
                  rw [List.filterMap_cons_some hgx] at hnd
                  rw [heq2] at hbxs
                  exact (List.nodup_cons.1 hnd).1 hbxs
                · exact ih hndtail a ha' b hb hpa hmem'

/-- C4: disconnecting one variable reference removes every connection
touching it; together with the removed connection its pseudo-component
number disappears from the live pseudo-component registry (and hence from
the derived node list of the dependency graph), while every connection not
touching that variable is left intact, entry for entry. -/
theorem c4_disconnect_var (s : Assembly) (r : VRef) (hwf : s.wf) :
    (∀ e ∈ s.entries, touchesVar e r = true →
      e ∉ (s.disconnectVar r).entries ∧
      ∀ p : PseudoInfo, e.pseudo = some p →
        p.idx ∉ (s.disconnectVar r).pseudoIdxs) ∧
    (∀ e ∈ s.entries, touchesVar e r = false →
      e ∈ (s.disconnectVar r).entries) := by
  constructor
  · intro e he htouch
    constructor
    · intro hmem
      have := (List.mem_filter.1 hmem).2
      simp [htouch] at this
    · intro p hp
      exact filterMap_filter_not_mem _ _ s.entries hwf.2 e he p.idx
        (by rw [hp]; rfl) (by simp [htouch])
  · intro e he htouch
    exact List.mem_filter.2 ⟨he, by simp [htouch]⟩

/-- C4, witness: on the `test_multi_src` state, disconnecting
`comp1.dist` removes the composite connection and pseudo-component `_1`
while the direct (unit-converted) connection `comp1.c -> comp2.a` and its
pseudo-component `_0` survive untouched, exactly as the test asserts. -/
theorem c4_witness :
    multiModel.wf ∧
    (∃ e ∈ multiModel.entries, touchesVar e ⟨"comp1", "dist"⟩ = true ∧
      e ∉ (multiModel.disconnectVar ⟨"comp1", "dist"⟩).entries ∧
      ∀ p : PseudoInfo, e.pseudo = some p →
        p.idx ∉ (multiModel.disconnectVar ⟨"comp1", "dist"⟩).pseudoIdxs) ∧
    (∃ e ∈ multiModel.entries, touchesVar e ⟨"comp1", "dist"⟩ = false ∧
      e ∈ (multiModel.disconnectVar ⟨"comp1", "dist"⟩).entries) ∧
    (multiModel.disconnectVar ⟨"comp1", "dist"⟩).list_pseudocomps = ["_0"] ∧
    (multiModel.disconnectVar ⟨"comp1", "dist"⟩).depgraph_list_connections =
      [("comp1.c", "_0.in0"), ("_0.out0", "comp2.a")] ∧
    (multiModel.disconnectVar ⟨"comp1", "dist"⟩).list_connections_visible =
      [("comp1.c", "comp2.a")] := by
  have h := c4_disconnect_var multiModel ⟨"comp1", "dist"⟩ (by decide)
  refine ⟨by decide, ?_, ?_, by decide, by decide, by decide⟩
  · obtain ⟨e, he⟩ : ∃ e, e ∈ multiModel.entries ∧
        touchesVar e ⟨"comp1", "dist"⟩ = true := by
      refine ⟨multiModel.entries[1], by decide, by decide⟩
    exact ⟨e, he.1, he.2, h.1 e he.1 he.2⟩
  · obtain ⟨e, he⟩ : ∃ e, e ∈ multiModel.entries ∧
        touchesVar e ⟨"comp1", "dist"⟩ = false := by
      refine ⟨multiModel.entries[0], by decide, by decide⟩
    exact ⟨e, he.1, he.2, h.2 e he.1 he.2⟩

/-! ## Claim C5 -/

/-- Structural operations on an assembly: a connect request and a
variable-level disconnect (the operations that create and destroy
pseudo-components, §4.3). -/
inductive AsmOp where
  | conn : Expr → VRef → AsmOp
  | disc : VRef → AsmOp

/-- Apply one operation; a failed connect leaves the state unchanged
(§7: no partial mutation on failure). -/
def applyOp (s : Assembly) : AsmOp → Assembly
  | .conn src dst => afterConnect s src dst
  | .disc r => s.disconnectVar r

/-- Apply a sequence of operations. -/
def applyOps (s : Assembly) (ops : List AsmOp) : Assembly :=
  ops.foldl applyOp s

/-- Numbers handed out to pseudo-components synthesized along an operation
sequence, in creation order (a connect synthesizes a pseudo-component
exactly when it bumps the counter, and the number it uses is the counter
value at that moment). -/
def opSynthIdxs : Assembly → List AsmOp → List ℕ
  | _, [] => []
  | s, op :: ops =>
      (if (applyOp s op).counter = s.counter then [] else [s.counter])
        ++ opSynthIdxs (applyOp s op) ops

/-- The naming counter never decreases across any single operation. -/
theorem counter_mono_applyOp (s : Assembly) (op : AsmOp) :
    s.counter ≤ (applyOp s op).counter := by
  cases op with
  | disc r => exact Nat.le_refl _
  | conn src dst =>
      simp only [applyOp, afterConnect, Assembly.connect]
      cases h : s.entries.any (fun e => e.dest = dst) with
      | true => simp [h]
      | false =>
          simp only [h, Bool.false_eq_true, if_false]
          exact Nat.le_add_right _ _

/-- The naming counter never decreases across any operation sequence. -/
theorem counter_mono_applyOps (ops : List AsmOp) :
    ∀ s : Assembly, s.counter ≤ (applyOps s ops).counter := by
  induction ops with
  | nil => intro s; exact Nat.le_refl _
  | cons op ops ih =>
      intro s
      exact Nat.le_trans (counter_mono_applyOp s op) (ih (applyOp s op))

/-- Every number synthesized along a sequence is at least the starting
counter value. -/
theorem opSynthIdxs_lower (ops : List AsmOp) :
    ∀ s : Assembly, ∀ i ∈ opSynthIdxs s ops, s.counter ≤ i := by
  induction ops with
  | nil => intro s i hi; exact absurd hi (List.not_mem_nil i)
  | cons op ops ih =>
      intro s i hi
      rw [opSynthIdxs] at hi
      rcases List.mem_append.1 hi with h1 | h2
      · split at h1
        · exact absurd h1 (List.not_mem_nil i)
        · rw [List.mem_singleton.1 h1]
      · exact Nat.le_trans (counter_mono_applyOp s op) (ih (applyOp s op) i h2)

/-- C5: across every connect/disconnect sequence the pseudo-component
naming counter is monotonically non-decreasing, the numbers handed out to
synthesized pseudo-components are strictly increasing in creation order
(hence a destroyed number is never handed out again), and every number
handed out is strictly larger than that of any pseudo-component alive at
the start. -/
theorem c5_counter_monotone (s : Assembly) (ops : List AsmOp) (hwf : s.wf) :
    s.counter ≤ (applyOps s ops).counter ∧
    (opSynthIdxs s ops).Pairwise (· < ·) ∧
    (∀ i ∈ s.pseudoIdxs, ∀ j ∈ opSynthIdxs s ops, i < j) := by
  refine ⟨counter_mono_applyOps ops s, ?_, ?_⟩
  · clear hwf
    induction ops generalizing s with
    | nil => exact List.Pairwise.nil
    | cons op ops ih =>
        rw [opSynthIdxs]
        by_cases h : (applyOp s op).counter = s.counter
        · simpa [h] using ih (applyOp s op)
        · have hlt : s.counter < (applyOp s op).counter :=
            Nat.lt_of_le_of_ne (counter_mono_applyOp s op) (Ne.symm h)
          simp only [h, if_neg, List.singleton_append]
          refine List.Pairwise.cons ?_ (ih (applyOp s op))
          intro j hj
          exact Nat.lt_of_lt_of_le hlt (opSynthIdxs_lower ops (applyOp s op) j hj)
  · intro i hi j hj
    exact Nat.lt_of_lt_of_le (hwf.1 i hi) (opSynthIdxs_lower ops s j hj)

/-- C5, witness: replaying the `test_multi_src` scenario — connect,
composite connect, disconnect `comp1.dist`, composite connect again —
synthesizes numbers 0, 1, 2 in strictly increasing order and never reuses
the destroyed `_1`. -/
theorem c5_witness :
    simpleModel0.wf ∧
    (simpleModel0.counter ≤
      (applyOps simpleModel0
        [.conn (.ref ⟨"comp1", "c"⟩) ⟨"comp2", "a"⟩,
         .conn srcDistTime ⟨"comp2", "speed"⟩,
         .disc ⟨"comp1", "dist"⟩,
         .conn srcDistTime ⟨"comp2", "speed"⟩]).counter ∧
     (opSynthIdxs simpleModel0
        [.conn (.ref ⟨"comp1", "c"⟩) ⟨"comp2", "a"⟩,
         .conn srcDistTime ⟨"comp2", "speed"⟩,
         .disc ⟨"comp1", "dist"⟩,
         .conn srcDistTime ⟨"comp2", "speed"⟩]).Pairwise (· < ·) ∧
     (∀ i ∈ simpleModel0.pseudoIdxs,
       ∀ j ∈ opSynthIdxs simpleModel0
         [.conn (.ref ⟨"comp1", "c"⟩) ⟨"comp2", "a"⟩,
          .conn srcDistTime ⟨"comp2", "speed"⟩,
          .disc ⟨"comp1", "dist"⟩,
          .conn srcDistTime ⟨"comp2", "speed"⟩], i < j)) ∧
    opSynthIdxs simpleModel0
        [.conn (.ref ⟨"comp1", "c"⟩) ⟨"comp2", "a"⟩,
         .conn srcDistTime ⟨"comp2", "speed"⟩,
         .disc ⟨"comp1", "dist"⟩,
         .conn srcDistTime ⟨"comp2", "speed"⟩] = [0, 1, 2] :=
  ⟨by decide,
   c5_counter_monotone simpleModel0
     [.conn (.ref ⟨"comp1", "c"⟩) ⟨"comp2", "a"⟩,
      .conn srcDistTime ⟨"comp2", "speed"⟩,
      .disc ⟨"comp1", "dist"⟩,
      .conn srcDistTime ⟨"comp2", "speed"⟩] (by decide),
   by decide⟩

/-! ## Claim C6 -/

/-- The assembly of `_simple_model(units=False)`: same components, no unit
declarations (test_basic_nounits fixture, giving plain direct
connections). -/
def simpleNoUnits0 : Assembly :=
  { comps := ["comp1", "comp2", "driver", "@bin", "@bout", "@xin", "@xout"],
    units := [], entries := [], counter := 0 }

/-- C6: for every graph state whose destination is not already driven,
`connect(a, b)` succeeds and the subsequent `disconnect(a -> b)` restores
the connection list — and with it the dependency graph's node list and
edge list and both expression-mapper views — to exactly their pre-connect
state, for trivial and composite sources alike. -/
theorem c6_roundtrip (s : Assembly) (src : Expr) (dst : VRef)
    (hdriven : ∀ e ∈ s.entries, e.dest ≠ dst) :
    ∃ t : Assembly, s.connect src dst = .ok t ∧
      (t.disconnectPair src.render dst).entries = s.entries ∧
      (t.disconnectPair src.render dst).nodes = s.nodes ∧
      (t.disconnectPair src.render dst).depgraph_list_connections =
        s.depgraph_list_connections ∧
      (t.disconnectPair src.render dst).list_connections =
        s.list_connections ∧
      (t.disconnectPair src.render dst).list_connections_visible =
        s.list_connections_visible := by
  have hany : s.entries.any (fun e => e.dest = dst) = false := by
    rw [List.any_eq_false]
    intro e he
    simpa using hdriven e he
  have hconn : s.connect src dst = .ok
      (Assembly.mk s.comps s.units (s.entries ++ [mkEntry s src dst])
        (s.counter + if (mkEntry s src dst).pseudo.isSome then 1 else 0)) := by
    simp only [Assembly.connect, hany, Bool.false_eq_true, if_false]
  have hE : ((Assembly.mk s.comps s.units (s.entries ++ [mkEntry s src dst])
      (s.counter + if (mkEntry s src dst).pseudo.isSome then 1 else 0)).disconnectPair
        src.render dst).entries = s.entries := by
    simp only [Assembly.disconnectPair]
    rw [List.filter_append]
    have h1 : s.entries.filter
        (fun e => ¬(e.src.render = src.render ∧ e.dest = dst)) = s.entries := by
      apply List.filter_eq_self.2
      intro e he
      simp [hdriven e he]
    have hdst : (mkEntry s src dst).dest = dst := by
      cases src <;> simp only [mkEntry] <;> first
        | rfl
        | (cases neededTransform (s.unitOf _) (s.unitOf dst) <;> rfl)
    have hsrc : (mkEntry s src dst).src = src := by
      cases src <;> simp only [mkEntry] <;> first
        | rfl
        | (cases neededTransform (s.unitOf _) (s.unitOf dst) <;> rfl)
    have h2 : [mkEntry s src dst].filter
        (fun e => ¬(e.src.render = src.render ∧ e.dest = dst)) = [] := by
      simp [List.filter, hsrc, hdst]
    rw [h1, h2, List.append_nil]
  refine ⟨_, hconn, hE, ?_, ?_, ?_, ?_⟩
  · simp only [Assembly.nodes, Assembly.list_pseudocomps, Assembly.pseudoIdxs, hE]
    rfl
  · simp only [Assembly.depgraph_list_connections, hE]
  · simp only [Assembly.list_connections, hE]
  · simp only [Assembly.list_connections_visible, hE]

/-- C6, witness: the round-trip applied to a trivial connection on the
unitless model and to the composite connection
`comp1.dist/comp1.time -> comp2.speed` on the `test_multi_src` state. -/
theorem c6_witness :
    (∀ e ∈ simpleNoUnits0.entries, e.dest ≠ (⟨"comp2", "a"⟩ : VRef)) ∧
    (∀ e ∈ unitsModel.entries, e.dest ≠ (⟨"comp2", "speed"⟩ : VRef)) ∧
    (∃ t : Assembly,
      simpleNoUnits0.connect (.ref ⟨"comp1", "c"⟩) ⟨"comp2", "a"⟩ = .ok t ∧
      (t.disconnectPair (Expr.ref ⟨"comp1", "c"⟩).render ⟨"comp2", "a"⟩).entries =
        simpleNoUnits0.entries ∧
      (t.disconnectPair (Expr.ref ⟨"comp1", "c"⟩).render ⟨"comp2", "a"⟩).nodes =
        simpleNoUnits0.nodes ∧
      (t.disconnectPair (Expr.ref ⟨"comp1", "c"⟩).render
        ⟨"comp2", "a"⟩).depgraph_list_connections =
        simpleNoUnits0.depgraph_list_connections ∧
      (t.disconnectPair (Expr.ref ⟨"comp1", "c"⟩).render
        ⟨"comp2", "a"⟩).list_connections = simpleNoUnits0.list_connections ∧
      (t.disconnectPair (Expr.ref ⟨"comp1", "c"⟩).render
        ⟨"comp2", "a"⟩).list_connections_visible =
        simpleNoUnits0.list_connections_visible) ∧
    (∃ t : Assembly,
      unitsModel.connect srcDistTime ⟨"comp2", "speed"⟩ = .ok t ∧
      (t.disconnectPair srcDistTime.render ⟨"comp2", "speed"⟩).entries =
        unitsModel.entries ∧
      (t.disconnectPair srcDistTime.render ⟨"comp2", "speed"⟩).nodes =
        unitsModel.nodes ∧
      (t.disconnectPair srcDistTime.render
        ⟨"comp2", "speed"⟩).depgraph_list_connections =
        unitsModel.depgraph_list_connections ∧
      (t.disconnectPair srcDistTime.render ⟨"comp2", "speed"⟩).list_connections =
        unitsModel.list_connections ∧
      (t.disconnectPair srcDistTime.render
        ⟨"comp2", "speed"⟩).list_connections_visible =
        unitsModel.list_connections_visible) :=
  ⟨by decide, by decide,
   c6_roundtrip simpleNoUnits0 (.ref ⟨"comp1", "c"⟩) ⟨"comp2", "a"⟩ (by decide),
   c6_roundtrip unitsModel srcDistTime ⟨"comp2", "speed"⟩ (by decide)⟩

/-! ## Claim C7: finite differences (exact arithmetic) -/

/-- Modelled from the spec: forward difference
`(f(x+h) - f(x)) / h` (§4.5). -/
def forward_difference (f : ℚ → ℚ) (x h : ℚ) : ℚ := (f (x + h) - f x) / h

/-- Modelled from the spec: central difference
`(f(x+h) - f(x-h)) / (2h)` (§4.5). -/
def central_difference (f : ℚ → ℚ) (x h : ℚ) : ℚ :=
  (f (x + h) - f (x - h)) / (2 * h)

/-- The test component response `y = 2*x1^2 + 2*x2^2` of
`test_derivatives_fd.MyComp`, restricted to the two variables the claim
varies (the others held at their fixed values contribute an additive
constant that cancels in every difference). -/
def myCompY (x1 x2 : ℚ) : ℚ := 2 * x1 * x1 + 2 * x2 * x2

/-- C7: for `y = 2x1^2 + 2x2^2` at `x1 = x2 = 1` with step `h = 0.1`, the
forward-difference Jacobian entry is exactly `4.2`, which differs from the
analytic value `4.0`, while the central-difference entry at the same step
is exactly the analytic `4.0`. -/
theorem c7_forward_vs_central :
    forward_difference (fun t => myCompY 1 t) 1 (1/10) = 42/10 ∧
    (42/10 : ℚ) ≠ 4 ∧
    central_difference (fun t => myCompY 1 t) 1 (1/10) = 4 := by
  refine ⟨?_, by norm_num, ?_⟩ <;> norm_num [forward_difference,
    central_difference, myCompY]

/-! ## IEEE-double model for Claim C8

The test `test_fd_step_type` observes `J = 0.0` at `x = 1e12` with the
default absolute step: a double-precision cancellation (`1e12 + 1e-6`
rounds back to `1e12`).  To settle the claim the computation is replayed
in a binary floating-point model: numbers are dyadics `m * 2^e` and every
operation rounds the mantissa to 53 bits, round-to-nearest, ties to even
(normal range only — no underflow or overflow occurs in the replayed
computation). -/

/-- Bit length of a natural number (fuel-based so the kernel can reduce
it). -/
def bitLenAux : ℕ → ℕ → ℕ
  | 0, _ => 0
  | f + 1, n => if n = 0 then 0 else bitLenAux f (n / 2) + 1

/-- Bit length with fuel ample for every number in the replayed
computation. -/
def bitLen (n : ℕ) : ℕ := bitLenAux 1000 n

/-- A dyadic number `m * 2^e`. -/
structure Dyadic where
  m : ℤ
  e : ℤ
deriving DecidableEq, Repr

/-- Rational value of a dyadic. -/
def Dyadic.toRat (d : Dyadic) : ℚ :=
  if 0 ≤ d.e then (d.m : ℚ) * ((2 ^ d.e.toNat : ℕ) : ℚ)
  else (d.m : ℚ) / ((2 ^ (-d.e).toNat : ℕ) : ℚ)

/-- Round a dyadic's mantissa to 53 significant bits, round-to-nearest,
ties to even (the IEEE-754 binary64 significand width). -/
def dRound53 (d : Dyadic) : Dyadic :=
  let n := d.m.natAbs
  let L := bitLen n
  if L ≤ 53 then d
  else
    let k := L - 53
    let q := n / 2 ^ k
    let r := n % 2 ^ k
    let half := 2 ^ (k - 1)
    let q2 := if r < half then q
      else if half < r then q + 1
      else if q % 2 = 0 then q else q + 1
    { m := if d.m < 0 then -(q2 : ℤ) else (q2 : ℤ), e := d.e + (k : ℤ) }

/-- Exact sum of two dyadics (no rounding). -/
def dAddRaw (a b : Dyadic) : Dyadic :=
  if a.e ≤ b.e then { m := a.m + b.m * 2 ^ (b.e - a.e).toNat, e := a.e }
  else { m := a.m * 2 ^ (a.e - b.e).toNat + b.m, e := b.e }

/-- Negation of a dyadic. -/
def dNeg (d : Dyadic) : Dyadic := { m := -d.m, e := d.e }

/-- Double-precision addition: exact sum, then rounding. -/
def flAdd (a b : Dyadic) : Dyadic := dRound53 (dAddRaw a b)

/-- Double-precision subtraction. -/
def flSub (a b : Dyadic) : Dyadic := flAdd a (dNeg b)

/-- Double-precision multiplication: exact product, then rounding. -/
def flMul (a b : Dyadic) : Dyadic :=
  dRound53 { m := a.m * b.m, e := a.e + b.e }

/-- Double-precision division: quotient computed to more than 60
significant bits with a sticky bit, then rounded to 53 bits. -/
def flDiv (a b : Dyadic) : Dyadic :=
  if a.m = 0 ∨ b.m = 0 then { m := 0, e := 0 }
  else
    let na := a.m.natAbs
    let nb := b.m.natAbs
    let k := 60 + bitLen nb
    let q := na * 2 ^ k / nb
    let r := na * 2 ^ k % nb
    let q2 := 2 * q + (if r = 0 then 0 else 1)
    let sgn : ℤ := if (a.m < 0) = (b.m < 0) then 1 else -1
    dRound53 { m := sgn * (q2 : ℤ), e := a.e - b.e - (k : ℤ) - 1 }

/-! ## Claim C8 -/

/-- Modelled from the spec: with `fd_step_type == absolute` the configured
step is used unscaled (§4.5). -/
def fd_step_absolute (h x : ℚ) : ℚ := h

/-- Modelled from the spec: with `fd_step_type == relative` the configured
step is scaled by `max(|x|, tiny_floor)` so it cannot vanish at
`x == 0` (§4.5). -/
def fd_step_relative (h x tiny : ℚ) : ℚ := h * max |x| tiny

/-- One term `2.0*x*x` of the `MyComp.execute` response, with IEEE-double
rounding after each product (left-associated, as in the Python source). -/
def flTerm (x : Dyadic) : Dyadic := flMul (flMul { m := 2, e := 0 } x) x

/-- The full `MyComp.execute` response
`y = 2*x1*x1 + 2*x2*x2 + 2*x3*x3 + 2*x4*x4` under double rounding,
sums left-associated as in the Python source. -/
def myCompYFl (x1 x2 x3 x4 : Dyadic) : Dyadic :=
  flAdd (flAdd (flAdd (flTerm x1) (flTerm x2)) (flTerm x3)) (flTerm x4)

/-- The stored double for `x4 = 0.001` of the test fixture. -/
def x4stored : Dyadic := flDiv { m := 1, e := 0 } { m := 1000, e := 0 }

/-- `MyComp` response as a function of `x1` with `x2 = x3 = 1.0` and
`x4 = 0.001` at their `test_fd_step_type` values. -/
def fBig (x : Dyadic) : Dyadic :=
  myCompYFl x { m := 1, e := 0 } { m := 1, e := 0 } x4stored

/-- The stored double for the default gradient step `fd_step = 1.0e-6`. -/
def defaultFdStep : Dyadic := flDiv { m := 1, e := 0 } { m := 1000000, e := 0 }

/-- Modelled from the spec: forward difference `(f(x+h) - f(x)) / h`
computed in double precision (§4.5). -/
def fdForwardFl (f : Dyadic → Dyadic) (x h : Dyadic) : Dyadic :=
  flDiv (flSub (f (flAdd x h)) (f x)) h

/-- The perturbed input `x1 = 1e12` of `test_fd_step_type` (exactly
representable). -/
def xBig : Dyadic := { m := 10 ^ 12, e := 0 }

/-- The relative step at `x1 = 1e12`: the stored default step times
`max(|x|, tiny_floor) = 1e12`, in double precision. -/
def relStepBig : Dyadic := flMul defaultFdStep xBig

/-- C8, counterexample: with relative step type the forward-difference
Jacobian of `y` at `x1 = 1e12` does not evaluate to `4.0e12` exactly: the
double-precision value is `8192004096314321 * 2^-11 = 4e12 + 2000153.48...`
(the test only asserts agreement to a 1e-4 relative tolerance). -/
theorem c8_counterexample :
    (fdForwardFl fBig xBig relStepBig).toRat ≠ 4 * 10 ^ 12 := by
  have h : fdForwardFl fBig xBig relStepBig =
      { m := 8192004096314321, e := -11 } := by
    set_option maxRecDepth 100000 in decide
  rw [h]
  norm_num [Dyadic.toRat, show Int.toNat 11 = 11 from rfl]

/-- C8, amended: the relative perturbation is the configured step scaled
by `max(|x|, tiny_floor)` and hence never zero for positive step and
floor (in particular not at `x = 0`); the absolute step is used unscaled.
At `x1 = 1e12` the default absolute step `1e-6` is swallowed by double
rounding (`1e12 + 1e-6` rounds back to `1e12`) so the forward-difference
Jacobian of `y = 2x^2 + ...` evaluates to exactly `0.0`, while with
relative step type the step becomes `1e6` and the Jacobian evaluates to
`4.0e12` within the `1e-4` relative tolerance the repository test
asserts (exactly `4e12 + 4096314321/2048`). -/
theorem c8_amended :
    (∀ h x tiny : ℚ, 0 < h → 0 < tiny → fd_step_relative h x tiny ≠ 0) ∧
    (∀ h x : ℚ, fd_step_absolute h x = h) ∧
    (flAdd xBig defaultFdStep).toRat = xBig.toRat ∧
    (fdForwardFl fBig xBig defaultFdStep).toRat = 0 ∧
    relStepBig.toRat = 10 ^ 6 ∧
    |(fdForwardFl fBig xBig relStepBig).toRat - 4 * 10 ^ 12| ≤
      4 * 10 ^ 12 / 10 ^ 4 := by
  refine ⟨?_, fun h x => rfl, ?_, ?_, ?_, ?_⟩
  · intro h x tiny hh ht
    exact ne_of_gt (mul_pos hh (lt_of_lt_of_le ht (le_max_right _ _)))
  · have h1 : flAdd xBig defaultFdStep = { m := 8192000000000000, e := -13 } := by
      set_option maxRecDepth 100000 in decide
    rw [h1]
    norm_num [Dyadic.toRat, xBig, show Int.toNat 13 = 13 from rfl]
  · have h2 : fdForwardFl fBig xBig defaultFdStep = { m := 0, e := 0 } := by
      set_option maxRecDepth 100000 in decide
    rw [h2]
    norm_num [Dyadic.toRat]
  · have h3 : relStepBig = { m := 8589934592000000, e := -33 } := by
      set_option maxRecDepth 100000 in decide
    rw [h3]
    norm_num [Dyadic.toRat, show Int.toNat 33 = 33 from rfl]
  · have h4 : fdForwardFl fBig xBig relStepBig =
        { m := 8192004096314321, e := -11 } := by
      set_option maxRecDepth 100000 in decide
    rw [h4]
    norm_num [Dyadic.toRat, show Int.toNat 11 = 11 from rfl, abs_le]

/-- C8, witness: the never-zero relative-step guarantee applied at
`x = 0` with the default step `1e-6` and floor `1e-3`. -/
theorem c8_witness :
    (0 : ℚ) < 1 / 1000000 ∧ (0 : ℚ) < 1 / 1000 ∧
    fd_step_relative (1 / 1000000) 0 (1 / 1000) ≠ 0 :=
  ⟨by norm_num, by norm_num,
   c8_amended.1 (1 / 1000000) 0 (1 / 1000) (by norm_num) (by norm_num)⟩

/-! ## Claim C9: FileManager constructor (filemanager.py) -/

/-- Filesystem model for `filemanager.py`: a working directory and the
sets of existing directories and files, with paths as segment lists. -/
structure FS where
  cwd : List String
  dirs : List (List String)
  files : List (List String)
deriving DecidableEq, Repr

/-- Whether a path exists (`os.path.exists`). -/
def pathExists (fs : FS) (p : List String) : Bool :=
  p ∈ fs.dirs || p ∈ fs.files

/-- `shutil.rmtree`: remove the path and everything beneath it. -/
def rmtree (fs : FS) (p : List String) : FS :=
  { fs with dirs := fs.dirs.filter (fun d => ¬ p.isPrefixOf d),
            files := fs.files.filter (fun f => ¬ p.isPrefixOf f) }

/-- `os.mkdir`: create an (empty) directory at the path. -/
def mkdir (fs : FS) (p : List String) : FS :=
  { fs with dirs := p :: fs.dirs }

/-- `os.chdir`: change the process working directory. -/
def chdir (fs : FS) (p : List String) : FS :=
  { fs with cwd := p }

/-- Path returned by `tempfile.mkdtemp(self.name)` when no explicit path
is supplied (fresh temp directory; its exact name is irrelevant to the
claims). -/
def mkdtempPath (name : String) : List String := ["tmp", name]

/-- The attributes `FileManager.__init__` stores. -/
structure FileManagerState where
  name : String
  orig_dir : List String
  root_dir : List String
  publish_updates : Bool
deriving DecidableEq, Repr

/-- `FileManager.__init__` (filemanager.py lines 27-41): remember the
original working directory, resolve `root_dir` from the `path` argument
or a fresh temp directory, delete `root_dir` recursively if it exists,
create it anew and change into it. -/
def FileManager.init (fs : FS) (name : String) (path : Option (List String))
    (publish_updates : Bool) : FileManagerState × FS :=
  let origDir := fs.cwd
  let rootDir := match path with
    | some p => p
    | none => mkdtempPath name
  let fs1 := if pathExists fs rootDir then rmtree fs rootDir else fs
  let fs2 := mkdir fs1 rootDir
  let fs3 := chdir fs2 rootDir
  ({ name := name, orig_dir := origDir, root_dir := rootDir,
     publish_updates := publish_updates }, fs3)

/-- C9: constructing a FileManager with an explicit path naming an
existing directory deletes that directory with its entire contents, then
creates a fresh empty directory at the same location (nothing beneath it
survives) and changes the process working directory into it; the previous
working directory is remembered as `orig_dir`. -/
theorem c9_filemanager_init (fs : FS) (name : String) (p : List String)
    (hdir : p ∈ fs.dirs) :
    (FileManager.init fs name (some p) false).1.root_dir = p ∧
    (FileManager.init fs name (some p) false).1.orig_dir = fs.cwd ∧
    (FileManager.init fs name (some p) false).2.cwd = p ∧
    p ∈ (FileManager.init fs name (some p) false).2.dirs ∧
    (∀ q ∈ (FileManager.init fs name (some p) false).2.dirs,
      p.isPrefixOf q = true → q = p) ∧
    (∀ q ∈ (FileManager.init fs name (some p) false).2.files,
      p.isPrefixOf q = false) := by
  have hex : pathExists fs p = true := by
    simp [pathExists, hdir]
  refine ⟨rfl, rfl, rfl, ?_, ?_, ?_⟩
  · simp only [FileManager.init, hex, if_pos, mkdir, chdir, rmtree]
    exact List.mem_cons_self _ _
  · intro q hq hpre
    simp only [FileManager.init, hex, if_pos, mkdir, chdir, rmtree] at hq
    rcases List.mem_cons.1 hq with h | h
    · exact h
    · have := (List.mem_filter.1 h).2
      simp [hpre] at this
  · intro q hq
    simp only [FileManager.init, hex, if_pos, mkdir, chdir, rmtree] at hq
    have h2 := (List.mem_filter.1 hq).2
    rcases hb : p.isPrefixOf q with _ | _
    · rfl
    · simp [hb] at h2

/-- C9, witness: a concrete filesystem whose directory `proj` has a
subdirectory and files; constructing `FileManager("n", path="proj")`
empties and recreates it and moves the working directory there. -/
theorem c9_witness :
    (["proj"] ∈ (FS.mk ["home"] [["proj"], ["proj", "sub"], ["etc"]]
      [["proj", "a.txt"], ["etc", "b.txt"]]).dirs) ∧
    ((FileManager.init (FS.mk ["home"] [["proj"], ["proj", "sub"], ["etc"]]
        [["proj", "a.txt"], ["etc", "b.txt"]]) "n" (some ["proj"])
        false).1.root_dir = ["proj"] ∧
     (FileManager.init (FS.mk ["home"] [["proj"], ["proj", "sub"], ["etc"]]
        [["proj", "a.txt"], ["etc", "b.txt"]]) "n" (some ["proj"])
        false).1.orig_dir = (FS.mk ["home"] [["proj"], ["proj", "sub"], ["etc"]]
        [["proj", "a.txt"], ["etc", "b.txt"]]).cwd ∧
     (FileManager.init (FS.mk ["home"] [["proj"], ["proj", "sub"], ["etc"]]
        [["proj", "a.txt"], ["etc", "b.txt"]]) "n" (some ["proj"])
        false).2.cwd = ["proj"] ∧
     ["proj"] ∈ (FileManager.init (FS.mk ["home"] [["proj"], ["proj", "sub"],
        ["etc"]] [["proj", "a.txt"], ["etc", "b.txt"]]) "n" (some ["proj"])
        false).2.dirs ∧
     (∀ q ∈ (FileManager.init (FS.mk ["home"] [["proj"], ["proj", "sub"],
        ["etc"]] [["proj", "a.txt"], ["etc", "b.txt"]]) "n" (some ["proj"])
        false).2.dirs, (["proj"] : List String).isPrefixOf q = true → q = ["proj"]) ∧
     (∀ q ∈ (FileManager.init (FS.mk ["home"] [["proj"], ["proj", "sub"],
        ["etc"]] [["proj", "a.txt"], ["etc", "b.txt"]]) "n" (some ["proj"])
        false).2.files, (["proj"] : List String).isPrefixOf q = false)) :=
  ⟨by decide,
   c9_filemanager_init (FS.mk ["home"] [["proj"], ["proj", "sub"], ["etc"]]
     [["proj", "a.txt"], ["etc", "b.txt"]]) "n" ["proj"] (by decide)⟩

/-! ## Claim C10: Container.get / Container.set (container.py) -/

/-- Python exceptions observable from `Container.get`/`Container.set`:
the framework-raised `AttributeError` (with its message, quotes around
the name omitted) and an uncaught dictionary `KeyError`. -/
inductive PyErr where
  | attr : String → PyErr
  | key : String → PyErr
deriving DecidableEq, Repr

/-- A framework object: a Variable holding a value, or a Container with
its `_pub` dict of named children (container.py `self._pub`). -/
inductive PObj where
  | leaf : ℚ → PObj
  | node : List (String × PObj) → PObj

/-- The `_pub` dict of an object (empty for a plain Variable). -/
def PObj.pub : PObj → List (String × PObj)
  | .leaf _ => []
  | .node l => l

/-- Value returned by a child's `get(None)` (a Variable returns its
value; the claims only exercise the lookup, not this value). -/
def PObj.value : PObj → ℚ
  | .leaf q => q
  | .node _ => 0

/-- Dictionary lookup `self._pub[name]`. -/
def lookupChild (l : List (String × PObj)) (k : String) : Option PObj :=
  match l.find? (fun p => p.1 = k) with
  | some p => some p.2
  | none => none

/-- `Container.get(path)` (container.py lines 261-286), with the dotted
path pre-split into segments.  A path without a dot (one segment) is the
`ValueError` branch of `path.split`, where a missing name is converted to
`AttributeError`; a dotted path reaches
`return self._pub[base].get(name, index)` OUTSIDE the try/except, so a
missing base escapes as a raw `KeyError`. -/
def Container.get (c : PObj) : List String → Except PyErr ℚ
  | [] => .ok c.value
  | [x] =>
      match lookupChild c.pub x with
      | some o => .ok o.value
      | none => .error (.attr ("object has no attribute " ++ x))
  | x :: rest =>
      match lookupChild c.pub x with
      | some o => Container.get o rest
      | none => .error (.key x)

/-- Replace the named child in a `_pub` dict. -/
def setChild (l : List (String × PObj)) (k : String) (v : PObj) :
    List (String × PObj) :=
  l.map (fun p => if p.1 = k then (p.1, v) else p)

/-- `Container.set(path, value)` (container.py lines 313-337), path
pre-split.  The base segment is looked up inside a try/except that
converts `KeyError` to `AttributeError` for dotted and plain paths alike;
on success the assignment is delegated to the child. -/
def Container.set (c : PObj) : List String → ℚ → Except PyErr PObj
  | [], _ => .error (.attr "object has no attribute ")
  | [x], v =>
      match lookupChild c.pub x with
      | some _ => .ok (.node (setChild c.pub x (.leaf v)))
      | none => .error (.attr ("object has no attribute " ++ x))
  | x :: rest, v =>
      match lookupChild c.pub x with
      | some o =>
          match Container.set o rest v with
          | .ok o2 => .ok (.node (setChild c.pub x o2))
          | .error e => .error e
      | none => .error (.attr ("object has no attribute " ++ x))

/-- True iff the result is an `AttributeError`. -/
def isAttrError : Except PyErr ℚ → Bool
  | .error (.attr _) => true
  | _ => false

/-- A concrete container with children `a` and `sub.b` and no child
`foo`. -/
def demoContainer : PObj :=
  .node [("a", .leaf 1), ("sub", .node [("b", .leaf 2)])]

/-- C10, counterexample: for the dotted path `foo.bar` whose first
segment names no entry of `_pub`, `Container.get` raises a raw `KeyError`
— not the claimed `AttributeError` — because the dotted-path lookup sits
outside the try/except; `Container.set` on the same path does raise
`AttributeError`. -/
theorem c10_counterexample :
    Container.get demoContainer ["foo", "bar"] = .error (.key "foo") ∧
    isAttrError (Container.get demoContainer ["foo", "bar"]) = false ∧
    Container.set demoContainer ["foo", "bar"] 5 =
      .error (.attr "object has no attribute foo") :=
  ⟨rfl, rfl, rfl⟩

/-- C10, amended: when the first segment of the path names no entry of
the container's `_pub` dict, `Container.set` raises `AttributeError`
(message `object has no attribute ...`) for dotted and plain paths alike,
and `Container.get` raises `AttributeError` for a plain (dot-free) path
but lets the raw `KeyError` escape for a dotted path; in every failing
case only an exception is produced, so the container is left unchanged. -/
theorem c10_amended :
    (∀ (l : List (String × PObj)) (x : String),
      lookupChild l x = none →
        Container.get (.node l) [x] =
          .error (.attr ("object has no attribute " ++ x))) ∧
    (∀ (l : List (String × PObj)) (x y : String) (rest : List String),
      lookupChild l x = none →
        Container.get (.node l) (x :: y :: rest) = .error (.key x)) ∧
    (∀ (l : List (String × PObj)) (x : String) (rest : List String) (v : ℚ),
      lookupChild l x = none →
        Container.set (.node l) (x :: rest) v =
          .error (.attr ("object has no attribute " ++ x))) := by
  refine ⟨?_, ?_, ?_⟩
  · intro l x hl
    simp [Container.get, PObj.pub, hl]
  · intro l x y rest hl
    simp [Container.get, PObj.pub, hl]
  · intro l x rest v hl
    cases rest with
    | nil => simp [Container.set, PObj.pub, hl]
    | cons y t => simp [Container.set, PObj.pub, hl]

/-- C10, witness: the amended behaviour at the concrete container: plain
missing path `foo` gives `AttributeError` from both operations, dotted
missing path `foo.bar` gives `KeyError` from get and `AttributeError`
from set. -/
theorem c10_witness :
    lookupChild demoContainer.pub "foo" = none ∧
    Container.get (.node demoContainer.pub) ["foo"] =
      .error (.attr "object has no attribute foo") ∧
    Container.get (.node demoContainer.pub) ["foo", "bar"] =
      .error (.key "foo") ∧
    Container.set (.node demoContainer.pub) ["foo", "bar"] 5 =
      .error (.attr "object has no attribute foo") :=
  ⟨rfl,
   c10_amended.1 demoContainer.pub "foo" rfl,
   c10_amended.2.1 demoContainer.pub "foo" "bar" [] rfl,
   c10_amended.2.2 demoContainer.pub "foo" ["bar"] 5 rfl⟩
